import Mathlib

/-!
Verification development for the m-obs-backend ingestion worker.

Each section is a shallow embedding of one worker module, translated
from the Python source:

* `MObs.Scoring`      — src/worker/src/providers/scoring.py
* `MObs.Decoder`      — src/worker/src/decoders/error_decoder.py
* `MObs.Rpc`          — src/worker/src/providers/rpc_client.py
* `MObs.Probe`        — src/worker/src/pipelines/provider_probe.py
* `MObs.Scanner`      — src/worker/src/pipelines/block_scanner.py
* `MObs.Rollup`       — src/worker/src/pipelines/metrics_rollup.py
* `MObs.Alerts`       — src/worker/src/pipelines/alert_evaluator.py
* `MObs.Manager`      — src/worker/src/providers/manager.py
* `MObs.WorkerState`  — src/worker/src/state/worker_state.py

Python `int` is modelled by `Int` (or `Nat` where the source value is a
count), Python true division by `Rat` division, `int(x)` on a
non-negative rational by `Rat.floor`, `Optional[T]` by `Option T`, and
raised exceptions by explicit `Except`/`Option` results.
-/

namespace MObs

namespace Scoring

/-- Python `int(q)` truncates toward zero. -/
def pyInt (q : ℚ) : ℤ := if 0 ≤ q then ⌊q⌋ else ⌈q⌉

/-- Model of `calculate_score` from src/worker/src/providers/scoring.py.

`latency_ms` is `Optional[int]`; the division `(latency_ms - 200)/50`
is Python float division, modelled exactly by rational division. -/
def calculate_score (latency_ms : Option ℤ) (consecutive_failures : ℕ)
    (block_lag : ℕ) : ℤ :=
  let base_score : ℚ := 100
  let latency_penalty : ℚ :=
    match latency_ms with
    | some l => if l > 200 then min 30 ((l - 200 : ℚ) / 50) else 0
    | none => 0
  let error_penalty : ℚ := min 75 ((consecutive_failures : ℚ) * 25)
  let block_lag_penalty : ℚ := (block_lag : ℚ) * 10
  let final_score : ℚ :=
    max 0 (base_score - latency_penalty - error_penalty - block_lag_penalty)
  pyInt final_score

/-- Model of `score_to_status` from src/worker/src/providers/scoring.py. -/
def score_to_status (score : ℤ) : String :=
  if score > 80 then "healthy"
  else if score > 50 then "degraded"
  else "unhealthy"

end Scoring

namespace Decoder

/-!
Shallow embedding of src/worker/src/decoders/error_decoder.py.

Python `str` values are Lean `String`s; Python string slicing,
lower-casing and prefix tests are modelled directly on the underlying
character list (`String.data`), which agrees with Python's
character-indexed slicing.  `bytes` values are `List Nat` with each
element below 256.
-/

/-- Python `s[:n]`. -/
def strTake (s : String) (n : ℕ) : String := ⟨s.data.take n⟩

/-- Python `s[n:]`. -/
def strDrop (s : String) (n : ℕ) : String := ⟨s.data.drop n⟩

/-- Python `s.lower()` (ASCII case mapping, which is all the decoder meets). -/
def strLower (s : String) : String := ⟨s.data.map Char.toLower⟩

/-- Python `s.startswith("0x")`. -/
def startsWith0x (s : String) : Bool := s.data.take 2 = ['0', 'x']

/-- Value of one hexadecimal digit, as accepted by Python `bytes.fromhex`. -/
def hexVal (c : Char) : Option ℕ :=
  if '0' ≤ c ∧ c ≤ '9' then some (c.toNat - '0'.toNat)
  else if 'a' ≤ c ∧ c ≤ 'f' then some (c.toNat - 'a'.toNat + 10)
  else if 'A' ≤ c ∧ c ≤ 'F' then some (c.toNat - 'A'.toNat + 10)
  else none

/-- Python `bytes.fromhex` on a whitespace-free string: pairs of hex digits;
`none` models the `ValueError` on an odd-length or non-hex input. -/
def bytesFromHexChars : List Char → Option (List ℕ)
  | [] => some []
  | [_] => none
  | c1 :: c2 :: rest =>
    match hexVal c1, hexVal c2, bytesFromHexChars rest with
    | some v1, some v2, some bs => some ((16 * v1 + v2) :: bs)
    | _, _, _ => none

/-- Python `bytes.fromhex(s)`. -/
def bytes_fromhex (s : String) : Option (List ℕ) := bytesFromHexChars s.data

/-- Big-endian value of a byte list. -/
def beValue (bs : List ℕ) : ℕ := bs.foldl (fun a b => a * 256 + b) 0

/-- Bytes decoded as ASCII text; `none` models a `UnicodeDecodeError`
(the library decodes UTF-8; the model covers its ASCII subset, which is
all the claims exercise). -/
def asciiString (bs : List ℕ) : Option String :=
  if bs.all (· < 128) then some ⟨bs.map Char.ofNat⟩ else none

/-- Model of `eth_abi.decode(["uint256"], data)`: the 32-byte big-endian
head word; `none` models a decoding exception on short input. -/
def abiDecodeUint256 (bs : List ℕ) : Option ℕ :=
  if 32 ≤ bs.length then some (beValue (bs.take 32)) else none

/-- Model of `eth_abi.decode(["string"], data)`: a 32-byte offset word,
then at that offset a 32-byte length word followed by the string bytes;
`none` models a decoding exception. -/
def abiDecodeString (bs : List ℕ) : Option String :=
  if 32 ≤ bs.length then
    let off := beValue (bs.take 32)
    if 32 + off ≤ bs.length then
      let strLen := beValue ((bs.drop off).take 32)
      if off + 32 + strLen ≤ bs.length then
        asciiString ((bs.drop (off + 32)).take strLen)
      else none
    else none
  else none

/-- Model of `extract_error_signature` from error_decoder.py. -/
def extract_error_signature (error_data : String) : Option String :=
  if error_data = "" ∨ error_data.length < 10 then none
  else
    let ed := if startsWith0x error_data then error_data else "0x" ++ error_data
    some (strLower (strTake ed 10))

/-- Structured revert parameters: `{"message": s}` or `{"code": n}`. -/
inductive ErrorParams where
  | message (s : String)
  | code (n : ℕ)
deriving DecidableEq

/-- Model of `PANIC_CODES` from error_decoder.py. -/
def PANIC_CODES : List (ℕ × String) :=
  [(0x01, "Assertion failed"),
   (0x11, "Arithmetic overflow/underflow"),
   (0x12, "Division by zero"),
   (0x21, "Invalid enum value"),
   (0x31, "Pop on empty array"),
   (0x32, "Array index out of bounds"),
   (0x41, "Memory allocation failed"),
   (0x51, "Zero-initialized function pointer")]

/-- Model of `decode_error` from error_decoder.py.  All source paths return a
non-null message, so the first component is a plain `String`. -/
def decode_error (error_data : String) : String × Option ErrorParams :=
  if error_data = "" then ("Unknown revert", none)
  else
    match extract_error_signature error_data with
    | none => ("Unknown revert", none)
    | some signature =>
      if signature = "0x08c379a0" then
        match bytes_fromhex (strDrop error_data 10) with
        | none => ("Error(string)", none)
        | some data_bytes =>
          match abiDecodeString data_bytes with
          | none => ("Error(string)", none)
          | some message => (message, some (.message message))
      else if signature = "0x4e487b71" then
        match bytes_fromhex (strDrop error_data 10) with
        | none => ("Panic(uint256)", none)
        | some data_bytes =>
          match abiDecodeUint256 data_bytes with
          | none => ("Panic(uint256)", none)
          | some panic_code =>
            match PANIC_CODES.lookup panic_code with
            | some message => (message, some (.code panic_code))
            | none => ("Panic(" ++ toString panic_code ++ ")", some (.code panic_code))
      else ("Custom error " ++ signature, none)

/-- The spec's `Error(string)` law-test input:
`"0x08c379a0" + abiEncode("string", "BOOM")`. -/
def errorStringInput : String :=
  "0x08c379a000000000000000000000000000000000000000000000000000000000000000200000000000000000000000000000000000000000000000000000000000000004424f4f4d00000000000000000000000000000000000000000000000000000000"

/-- The spec's `Panic(uint256)` law-test input: `"0x4e487b71" + pad32(0x11)`. -/
def panicInput : String :=
  "0x4e487b710000000000000000000000000000000000000000000000000000000000000011"


end Decoder

namespace Rpc

/-!
Shallow embedding of `RPCClient.call` from
src/worker/src/providers/rpc_client.py, lines 38-58.

The HTTP interaction is abstracted into its observable outcome
(`HttpOutcome`); the `try`/`except` chain of `call` is embedded
explicitly: the body either produces a value or raises one of the
exceptions in `PyExc`, and the three `except` clauses are matched in
source order.
-/

/-- The JSON-RPC `error` member of a decoded 2xx body:
`data["error"].get("code")` and `data["error"].get("message")`. -/
structure JsonRpcErrorObj where
  code : Option ℤ
  message : Option String
deriving DecidableEq

/-- A decoded 2xx JSON body: an optional `error` member and the value of
`data.get("result")` (opaque to the client, modelled as a string). -/
structure JsonBody where
  error : Option JsonRpcErrorObj
  result : Option String
deriving DecidableEq

/-- Observable outcome of `client.post` + `raise_for_status` + `.json()`. -/
inductive HttpOutcome where
  /-- `httpx.TimeoutException` was raised. -/
  | timeoutExc
  /-- `httpx.HTTPError` was raised (connection failure, or a non-2xx
  status via `raise_for_status`); the payload is `str(e)`. -/
  | httpExc (detail : String)
  /-- A 2xx response with JSON body `body`. -/
  | ok (body : JsonBody)
deriving DecidableEq

/-- Exceptions that can escape the `try` body of `call`. -/
inductive PyExc where
  | timeoutExc
  | httpExc (detail : String)
  /-- `RPCError(code, message)` raised at rpc_client.py line 46. -/
  | rpcErrorExc (code : Option ℤ) (message : Option String)
deriving DecidableEq

/-- The `RPCError` exception type (rpc_client.py lines 91-97). -/
structure RPCError where
  code : Option ℤ
  message : Option String
deriving DecidableEq

/-- Python `str(x)` for `Optional[int]`. -/
def pyOptIntStr : Option ℤ → String
  | none => "None"
  | some n => toString n

/-- Python `str(x)` for `Optional[str]` under f-string interpolation. -/
def pyOptStr : Option String → String
  | none => "None"
  | some s => s

/-- Model of `str(e)` for an `RPCError`: its constructor calls
`super().__init__(f"RPC Error {code}: {message}")`. -/
def rpcErrorStr (code : Option ℤ) (message : Option String) : String :=
  "RPC Error " ++ pyOptIntStr code ++ ": " ++ pyOptStr message

/-- The `try` body of `call` (rpc_client.py lines 39-51): post the
request, raise for status, decode, and raise `RPCError` if the body
carries an `error` member, else return `data.get("result")`. -/
def call_body (resp : HttpOutcome) : Except PyExc (Option String) :=
  match resp with
  | .timeoutExc => .error .timeoutExc
  | .httpExc detail => .error (.httpExc detail)
  | .ok body =>
    match body.error with
    | some eobj => .error (.rpcErrorExc eobj.code eobj.message)
    | none => .ok body.result

/-- Model of `RPCClient.call` (rpc_client.py lines 38-58): the `try` body wrapped
by the three `except` clauses, matched in source order.  `RPCError` is a
subclass of `Exception` but not of `httpx.TimeoutException` or
`httpx.HTTPError`, so an `RPCError` raised inside the body is caught by
the final `except Exception` clause and replaced. -/
def call (resp : HttpOutcome) : Except RPCError (Option String) :=
  match call_body resp with
  | .ok v => .ok v
  | .error .timeoutExc => .error ⟨some (-32001), some "Request timeout"⟩
  | .error (.httpExc detail) =>
    .error ⟨some (-32002), some ("HTTP error: " ++ detail)⟩
  | .error (.rpcErrorExc c m) =>
    .error ⟨some (-32003), some ("Unknown error: " ++ rpcErrorStr c m)⟩

/-- The C3 failing input: a 2xx response whose JSON-RPC body carries
`{"error": {"code": -32000, "message": "execution reverted"}}`. -/
def c3Body : JsonBody := ⟨some ⟨some (-32000), some "execution reverted"⟩, none⟩

end Rpc

namespace Probe

/-!
Shallow embedding of `ProviderProbe` from
src/worker/src/pipelines/provider_probe.py.

A cycle (lines 34-66) resets `self.leader_block` to 0, runs
`probe_endpoint` for every active endpoint under `asyncio.gather`, and
only after the gather has returned does it fold the successful block
numbers into `self.leader_block` (lines 54-57).  `probe_endpoint`
computes the persisted score itself (lines 111-118), so every score of
a cycle reads `self.leader_block` while it is still 0; the embedding
makes that value an explicit argument `leaderDuring` of
`probe_endpoint`, and `probe_cycle` passes 0, exactly as the dataflow
of the source does.

The network outcome of one `eth_blockNumber` call is abstracted into
`ProbeOutcome`; `self.consecutive_failures` is the map `cf`.
-/

/-- Outcome of the `eth_blockNumber` call in `probe_endpoint`. -/
inductive ProbeOutcome where
  /-- The call returned `block_number` after `latency_ms` milliseconds. -/
  | success (latency_ms : ℤ) (block_number : ℕ)
  /-- The call raised `RPCError` with the given code. -/
  | rpcFailure (code : Option ℤ)
  /-- The call raised some other exception. -/
  | unknownFailure
deriving DecidableEq

/-- The dict returned by `probe_endpoint` (lines 136-143), which
`update_endpoint` persists verbatim (lines 145-162). -/
structure ProbeResult where
  endpoint_id : ℕ
  score : ℤ
  status : String
  latency_ms : Option ℤ
  block_number : Option ℕ
  supports_traces : Bool
deriving DecidableEq

/-- Model of `probe_endpoint` (lines 68-143).  `leaderDuring` is the value of
`self.leader_block` at the time the score is computed; `cf` is
`self.consecutive_failures`.  Returns the updated failure map and the
result dict. -/
def probe_endpoint (leaderDuring : ℕ) (cf : ℕ → ℕ) (endpoint_id : ℕ)
    (out : ProbeOutcome) : (ℕ → ℕ) × ProbeResult :=
  let cf' : ℕ → ℕ :=
    match out with
    | .success _ _ => Function.update cf endpoint_id 0
    | _ => Function.update cf endpoint_id (cf endpoint_id + 1)
  let latency_ms : Option ℤ :=
    match out with
    | .success l _ => some l
    | _ => none
  let block_number : Option ℕ :=
    match out with
    | .success _ bn => some bn
    | _ => none
  -- `if block_number and self.leader_block > 0:` — Python truthiness of
  -- `block_number` is "not None and nonzero".
  let block_lag : ℕ :=
    match block_number with
    | some bn =>
      if bn ≠ 0 ∧ leaderDuring > 0 then (max 0 ((leaderDuring : ℤ) - bn)).toNat
      else 0
    | none => 0
  let score := Scoring.calculate_score latency_ms (cf' endpoint_id) block_lag
  (cf', ⟨endpoint_id, score, Scoring.score_to_status score, latency_ms,
         block_number, false⟩)

/-- Model of `probe_cycle` (lines 34-66) for a given list of active endpoints and
their probe outcomes.  Returns the updated failure map, the value of
`self.leader_block` after the post-gather fold (lines 54-57), and the
results that `update_endpoint` persists.  Each score is computed with
`leaderDuring = 0`: the reset at line 46 happens before the gather and
the fold at lines 54-57 after it. -/
def probe_cycle (cf : ℕ → ℕ) (endpoints : List (ℕ × ProbeOutcome)) :
    (ℕ → ℕ) × ℕ × List ProbeResult :=
  let step := fun (acc : (ℕ → ℕ) × List ProbeResult) (ep : ℕ × ProbeOutcome) =>
    let r := probe_endpoint 0 acc.1 ep.1 ep.2
    (r.1, acc.2 ++ [r.2])
  let folded := endpoints.foldl step (cf, [])
  -- `if isinstance(result, dict) and result.get("block_number"):`
  let leader_block := folded.2.foldl
    (fun m r =>
      match r.block_number with
      | some bn => if bn ≠ 0 then max m bn else m
      | none => m) 0
  (folded.1, leader_block, folded.2)

/-- The leader block the spec prescribes (§4.4 step 3):
`max(block_number)` across successful samples this cycle, default 0. -/
def spec_leader_block (samples : List (ℕ × ProbeOutcome)) : ℕ :=
  samples.foldl
    (fun m s =>
      match s.2 with
      | .success _ bn => max m bn
      | _ => m) 0

/-- The block lag the spec prescribes (§4.4 step 5):
`max(0, leader_block - block_number)`, 0 if the endpoint failed. -/
def spec_block_lag (leader : ℕ) : ProbeOutcome → ℕ
  | .success _ bn => (max 0 ((leader : ℤ) - bn)).toNat
  | _ => 0

/-- The latency sample of a probe outcome (`None` on failure). -/
def probeLatency : ProbeOutcome → Option ℤ
  | .success l _ => some l
  | _ => none

/-- The persisted score the spec prescribes for one endpoint of a cycle
(§4.4 step 6), with `cfAfter` the §4.4-step-4 failure count. -/
def spec_cycle_score (samples : List (ℕ × ProbeOutcome)) (cfAfter : ℕ)
    (out : ProbeOutcome) : ℤ :=
  Scoring.calculate_score (probeLatency out) cfAfter
    (spec_block_lag (spec_leader_block samples) out)

/-- The C2 failing input: two endpoints, both fast and failure-free,
endpoint 2 three blocks behind endpoint 1. -/
def c2Endpoints : List (ℕ × ProbeOutcome) :=
  [(1, .success 100 103), (2, .success 100 100)]

end Probe

namespace Scanner

/-!
Shallow embedding of `BlockScanner` from
src/worker/src/pipelines/block_scanner.py and of
`get_last_scanned_block` from src/worker/src/state/worker_state.py.

The chain as seen through the primary provider is a map from block
number to an optional block; per-transaction processing is irrelevant
to the claims about cursor movement, so a block carries only its
hashes and its transaction count, and the database writes a cycle
performs are recorded as an explicit event list in order.
-/

/-- A fetched block, as used by `scan_block`: `parentHash`, `hash`, and
its transaction list (only the count matters to cursor movement). -/
structure Block where
  parentHash : String
  hash : String
  txCount : ℕ
deriving DecidableEq

/-- The chain visible through `eth_get_block_by_number`:
`none` models a null response ("block not found"). -/
def Chain := ℕ → Option Block

/-- In-memory scanner state: `self.last_block_hash` and
`self.catching_up`. -/
structure ScannerMem where
  last_block_hash : Option String
  catching_up : Bool
deriving DecidableEq

/-- Database writes a scan cycle can perform, in order. -/
inductive DbWrite where
  /-- `UPDATE txs SET is_tentative = true WHERE block_number >= lo`
  (handle_reorg, lines 215-222). -/
  | markTentative (lo : ℤ)
  /-- `set_last_scanned_block(n, hash)` (worker_state.py lines 43-52). -/
  | setLastScanned (n : ℕ) (hash : String)
  /-- the batch insert of a block's transactions (lines 194-206). -/
  | insertTxs (block_number : ℕ) (count : ℕ)
deriving DecidableEq

/-- The stored `last_scanned_block` value. -/
structure LastScanned where
  block_number : ℕ
  block_hash : String
deriving DecidableEq

/-- Model of `get_last_scanned_block` (worker_state.py lines 37-40): the stored
state, or `{"block_number": 0, "block_hash": "0x0"}` when absent. -/
def get_last_scanned_block (stored : Option LastScanned) : LastScanned :=
  stored.getD ⟨0, "0x0"⟩

/-- Python truthiness of `self.last_block_hash` (`None` and `""` are
falsy). -/
def truthyHash : Option String → Bool
  | none => false
  | some s => s ≠ ""

/-- Model of `handle_reorg` (lines 210-229): mark txs from `block_num - 10`
tentative, reset the cursor to `max(0, block_num - 20)` with hash
`"0x0"`, clear the in-memory hash. -/
def handle_reorg (mem : ScannerMem) (block_num : ℕ) :
    ScannerMem × List DbWrite :=
  let new_last_block : ℕ := (max 0 ((block_num : ℤ) - 20)).toNat
  ({ mem with last_block_hash := none },
   [.markTentative ((block_num : ℤ) - 10),
    .setLastScanned new_last_block "0x0"])

/-- Model of `scan_block` (lines 75-107): fetch the block; on a parent-hash
mismatch run `handle_reorg` and return; otherwise ingest the
transactions, set `self.last_block_hash`, and persist the cursor.
A null block returns with no effect (retry next cycle). -/
def scan_block (chain : Chain) (mem : ScannerMem) (block_num : ℕ) :
    ScannerMem × List DbWrite :=
  match chain block_num with
  | none => (mem, [])
  | some block =>
    if truthyHash mem.last_block_hash ∧
        some block.parentHash ≠ mem.last_block_hash then
      handle_reorg mem block_num
    else
      ({ mem with last_block_hash := some block.hash },
       (if block.txCount ≠ 0 then [.insertTxs block_num block.txCount] else [])
         ++ [.setLastScanned block_num block.hash])

/-- The loop of `scan_cycle` over one batch (line 72-73): `scan_block`
for each block number in order, accumulating state and writes.  A
`return` inside `scan_block` — including the reorg path — only ends
that call; the loop continues with the next block number. -/
def scan_blocks (chain : Chain) (mem : ScannerMem) :
    List ℕ → ScannerMem × List DbWrite
  | [] => (mem, [])
  | n :: rest =>
    let r := scan_block chain mem n
    let r' := scan_blocks chain r.1 rest
    (r'.1, r.2 ++ r'.2)

/-- The block numbers one cycle scans (lines 56-72):
`last_scanned + 1 .. last_scanned + batch_size` where
`batch_size = min(block_batch_size, blocks_behind)` when catching up
(`blocks_behind > 10`), else 1; empty when `tip ≤ last_scanned`. -/
def cycle_block_range (block_batch_size : ℕ) (tip last_scanned : ℕ) :
    List ℕ :=
  if tip ≤ last_scanned then []
  else
    let blocks_behind := tip - last_scanned
    let batch_size :=
      if blocks_behind > 10 then min block_batch_size blocks_behind else 1
    List.range' (last_scanned + 1) batch_size

/-- Model of `scan_cycle` (lines 40-73) with a healthy provider: read the tip,
read the stored cursor, and scan the cycle's block range.  Returns the
final in-memory state and the ordered database writes. -/
def scan_cycle (block_batch_size : ℕ) (chain : Chain) (tip : ℕ)
    (stored : Option LastScanned) (mem : ScannerMem) :
    ScannerMem × List DbWrite :=
  let last_scanned := (get_last_scanned_block stored).block_number
  if tip ≤ last_scanned then ({ mem with catching_up := false }, [])
  else
    let catching := tip - last_scanned > 10
    scan_blocks chain { mem with catching_up := catching }
      (cycle_block_range block_batch_size tip last_scanned)

/-- The C1 failing input: the cursor sits at block 100 with in-memory
hash "H100"; the tip is 120, so the scanner is catching up with a batch
of 10; block 101's parent hash "X" does not extend "H100" (a reorg),
and blocks 102-110 are ordinary. -/
def c1Chain : Chain := fun n =>
  if n = 101 then some ⟨"X", "A101", 0⟩
  else if 102 ≤ n ∧ n ≤ 120 then some ⟨"A" ++ toString (n - 1), "A" ++ toString n, 0⟩
  else none

/-- The writes the C1 cycle actually performs. -/
def c1Writes : List DbWrite :=
  (scan_cycle 10 c1Chain 120 (some ⟨100, "H100"⟩) ⟨some "H100", false⟩).2

end Scanner

/-- A `txs` row, with the columns the rollup and alert pipelines read. -/
structure Tx where
  hash : String
  block_number : ℕ
  block_timestamp : ℤ
  from_address : String
  contract_id : Option ℕ
  status : ℕ
  gas_used : ℕ
  gas_price : ℕ
  error_signature : Option String
  error_decoded : Option String
deriving DecidableEq

/-- An `rpc_endpoints` row, with the columns the manager and the alert
pipeline read. -/
structure Endpoint where
  id : ℕ
  url : String
  is_active : Bool
  score : ℤ
  status : String
  supports_traces : Bool
deriving DecidableEq

/-- A `metrics_minute` row as upserted by the rollup (top_errors entries
are `(signature, name, count)`). -/
structure MetricsRow where
  bucket_ts : ℤ
  tx_count : ℕ
  tx_failed_count : ℕ
  gas_used_total : ℕ
  gas_price_avg : ℤ
  block_count : ℕ
  unique_senders : ℕ
  top_errors : List (String × String × ℕ)
deriving DecidableEq

namespace Rollup

/-!
Shallow embedding of `MetricsRollup.rollup_cycle` from
src/worker/src/pipelines/metrics_rollup.py, lines 37-161.

The `txs` table is a list of rows; the SQL aggregates are computed over
the rows whose `block_timestamp` lies in the target bucket.  SQL's
`ORDER BY count DESC LIMIT 5` leaves the order of equal counts
unspecified; the model uses an insertion sort that is descending in the
count, which realises one admissible order.
-/

/-- Database writes a rollup cycle can perform, in order. -/
inductive RollupWrite where
  /-- `set_state("metrics_rollup_cursor", {"last_bucket_ts": t})`. -/
  | setCursor (t : ℤ)
  /-- the `INSERT ... ON CONFLICT (bucket_ts) DO UPDATE` of one row. -/
  | upsertMetrics (row : MetricsRow)
deriving DecidableEq

/-- Model of `block_timestamp >= target AND block_timestamp < target + 60`. -/
def inBucket (target : ℤ) (t : Tx) : Bool :=
  target ≤ t.block_timestamp ∧ t.block_timestamp < target + 60

/-- Insert into a list sorted descending by count. -/
def insertByCountDesc (x : String × String × ℕ) :
    List (String × String × ℕ) → List (String × String × ℕ)
  | [] => [x]
  | y :: ys => if x.2.2 > y.2.2 then x :: y :: ys else y :: insertByCountDesc x ys

/-- Sort descending by count (one admissible `ORDER BY count DESC`). -/
def sortByCountDesc : List (String × String × ℕ) → List (String × String × ℕ)
  | [] => []
  | x :: xs => insertByCountDesc x (sortByCountDesc xs)

/-- The `top_errors` aggregate (lines 91-118): failed txs with a
non-null signature, grouped by `(error_signature, error_decoded)`,
top 5 by count descending; `name` is `error_decoded or "Unknown"`
(Python `or`, so an empty string also falls back). -/
def topErrors (bucket : List Tx) : List (String × String × ℕ) :=
  let failedKeys := bucket.filterMap fun t =>
    match t.error_signature with
    | some sig => if t.status = 0 then some (sig, t.error_decoded) else none
    | none => none
  let groups := failedKeys.dedup.map fun k =>
    (k.1,
     (match k.2 with
      | some s => if s ≠ "" then s else "Unknown"
      | none => "Unknown"),
     failedKeys.count k)
  (sortByCountDesc groups).take 5

/-- The completed minute (lines 40-44): `floor(now/60)*60 - 60`. -/
def target_bucket (now : ℕ) : ℤ :=
  ((now / 60) * 60 : ℕ) - 60

/-- Model of `rollup_cycle` (lines 37-161): compute the completed minute; return
if already processed; if the bucket has no txs advance only the cursor;
otherwise aggregate, upsert the row, and advance the cursor.  Returns
the new in-memory `self.last_bucket_ts` and the ordered writes. -/
def rollup_cycle (now : ℕ) (last_bucket_ts : ℤ) (txs : List Tx) :
    ℤ × List RollupWrite :=
  if target_bucket now ≤ last_bucket_ts then (last_bucket_ts, [])
  else
    let bucket := txs.filter (inBucket (target_bucket now))
    if bucket.length = 0 then
      (target_bucket now, [.setCursor (target_bucket now)])
    else
      let tx_count := bucket.length
      let tx_failed_count := (bucket.filter (·.status = 0)).length
      let gas_used_total := (bucket.map (·.gas_used)).sum
      -- `AVG(gas_price)` is exact in SQL (numeric); `int(...)` truncates.
      let gas_price_avg :=
        Scoring.pyInt (((bucket.map (·.gas_price)).sum : ℚ) / tx_count)
      let block_count := (bucket.map (·.block_number)).dedup.length
      let unique_senders := (bucket.map (·.from_address)).dedup.length
      let row : MetricsRow :=
        ⟨target_bucket now, tx_count, tx_failed_count, gas_used_total,
         gas_price_avg, block_count, unique_senders, topErrors bucket⟩
      (target_bucket now, [.upsertMetrics row, .setCursor (target_bucket now)])

end Rollup

namespace Manager

/-!
Shallow embedding of `ProviderManager.get_primary` from
src/worker/src/providers/manager.py, lines 38-71.

A `fetch_one` with `ORDER BY score DESC LIMIT 1` returns a row of
maximal score among those matching the `WHERE` clause; SQL leaves the
choice among equal scores unspecified, and the model keeps the first
such row in table order.  The client cache only memoises `RPCClient`
objects per id and does not affect which endpoint is selected, so the
embedding returns the selected row itself; `none` models the
`RuntimeError("No active providers available")`.
-/

/-- One step of scanning for the maximal-score row (first row wins a
tie, realising one admissible SQL ordering). -/
def maxByScoreStep (acc : Option Endpoint) (e : Endpoint) : Option Endpoint :=
  match acc with
  | none => some e
  | some m => if e.score > m.score then some e else some m

/-- Model of `SELECT ... WHERE p ORDER BY score DESC LIMIT 1`. -/
def sqlTopByScore (p : Endpoint → Bool) (rows : List Endpoint) :
    Option Endpoint :=
  (rows.filter p).foldl maxByScoreStep none

/-- Model of `is_active = true AND status = 'healthy'`. -/
def activeHealthy (e : Endpoint) : Bool := e.is_active && e.status == "healthy"

/-- Model of `is_active = true`. -/
def activeOnly (e : Endpoint) : Bool := e.is_active

/-- Model of `get_primary` (lines 38-71): the highest-scoring active healthy
endpoint, else the highest-scoring active endpoint, else a raise. -/
def get_primary (rows : List Endpoint) : Option Endpoint :=
  match sqlTopByScore activeHealthy rows with
  | some row => some row
  | none => sqlTopByScore activeOnly rows

/-- Concrete endpoint table: A healthy with score 92, B unhealthy with
score 30, C inactive with score 99. -/
def c7Rows : List Endpoint :=
  [⟨1, "https://a.example", true, 92, "healthy", false⟩,
   ⟨2, "https://b.example", true, 30, "unhealthy", false⟩,
   ⟨3, "https://c.example", false, 99, "healthy", false⟩]

end Manager

namespace Alerts

/-!
Shallow embedding of `AlertEvaluator.evaluate_alert` from
src/worker/src/pipelines/alert_evaluator.py, lines 61-266.

SQL aggregates over `txs`, `metrics_minute` and `rpc_endpoints` are
computed over explicit row lists (a `DbSnap`).  Python floats
(`threshold`, failure rates, averages) are modelled by exact rationals;
none of the proved properties depend on rounding.  The cooldown gate
`if last_triggered_at:` is Python truthiness: both `None` and `0` skip
the gate.
-/

/-- An `alerts` row, with the columns `evaluate_alert` reads. -/
structure Alert where
  id : ℕ
  name : String
  alert_type : String
  threshold : ℚ
  window_minutes : ℤ
  cooldown_minutes : ℤ
  severity : String
  contract_ids : List ℕ
  last_triggered_at : Option ℤ
deriving DecidableEq

/-- An `alert_events` row as inserted by `create_alert_event`. -/
structure AlertEvent where
  alert_id : ℕ
  triggered_at : ℤ
  severity : String
  value_observed : ℚ
  threshold : ℚ
deriving DecidableEq

/-- The database state an evaluation reads. -/
structure DbSnap where
  txs : List Tx
  metrics : List MetricsRow
  endpoints : List Endpoint

/-- Model of `eval_failure_rate` (lines 127-166). -/
def eval_failure_rate (threshold : ℚ) (window_start window_end : ℤ)
    (contract_ids : List ℕ) (txs : List Tx) : Option ℚ × Bool :=
  let matchRow := fun (t : Tx) =>
    window_start ≤ t.block_timestamp ∧ t.block_timestamp < window_end ∧
      -- `contract_id = ANY($3)` only when `contract_ids` is truthy
      -- (non-empty); a NULL contract_id never matches `ANY`.
      (contract_ids = [] ∨ ∃ cid ∈ contract_ids, t.contract_id = some cid)
  let sel := txs.filter fun t => decide (matchRow t)
  let total := sel.length
  if total = 0 then (none, false)
  else
    let failed := (sel.filter (·.status = 0)).length
    let failure_rate := ((failed : ℚ) / total) * 100
    (some failure_rate, failure_rate > threshold)

/-- Model of `AVG(gas_price_avg)` over a list of rows (`none` on an empty set,
as SQL `AVG` is NULL). -/
def avgGasPrice (rows : List MetricsRow) : Option ℚ :=
  if rows.length = 0 then none
  else some (((rows.map (·.gas_price_avg)).sum : ℚ) / rows.length)

/-- Model of `eval_gas_spike` (lines 168-218). -/
def eval_gas_spike (threshold : ℚ) (window_start window_end : ℤ)
    (metrics : List MetricsRow) : Option ℚ × Bool :=
  let cur := metrics.filter fun m =>
    decide (window_start ≤ m.bucket_ts ∧ m.bucket_ts < window_end)
  match avgGasPrice cur with
  | none => (none, false)
  | some current_avg =>
    let base := metrics.filter fun m =>
      decide (window_start - 3600 ≤ m.bucket_ts ∧ m.bucket_ts < window_start)
    match avgGasPrice base with
    | none => (none, false)
    | some baseline_avg =>
      if baseline_avg = 0 then (none, false)
      else
        let multiplier := current_avg / baseline_avg
        (some multiplier, multiplier > threshold)

/-- Model of `eval_provider_down` (lines 220-237). -/
def eval_provider_down (threshold : ℚ) (endpoints : List Endpoint) :
    Option ℚ × Bool :=
  let unhealthy_count :=
    (endpoints.filter fun e => e.is_active && e.status == "unhealthy").length
  (some (unhealthy_count : ℚ), (unhealthy_count : ℚ) ≥ threshold)

/-- The cooldown gate (lines 70-74).  `if last_triggered_at:` is Python
truthiness — both `None` and `0` skip the gate. -/
def cooldown_gated (a : Alert) (now : ℤ) : Bool :=
  match a.last_triggered_at with
  | some t => decide (t ≠ 0 ∧ now - t < a.cooldown_minutes * 60)
  | none => false

/-- The dispatch on `alert_type` (lines 84-102): `none` models the
unknown-type `return`. -/
def dispatch_eval (db : DbSnap) (a : Alert) (now : ℤ) :
    Option (Option ℚ × Bool) :=
  let window_start := now - a.window_minutes * 60
  if a.alert_type = "failure_rate" then
    some (eval_failure_rate a.threshold window_start now a.contract_ids db.txs)
  else if a.alert_type = "gas_spike" then
    some (eval_gas_spike a.threshold window_start now db.metrics)
  else if a.alert_type = "provider_down" then
    some (eval_provider_down a.threshold db.endpoints)
  else none

/-- Model of `evaluate_alert` (lines 61-125): cooldown gate, window, dispatch by
`alert_type`, and on trigger the `alert_events` insert plus the
`last_triggered_at` update.  Returns the updated alert row and the
inserted event, if any. -/
def evaluate_alert (db : DbSnap) (a : Alert) (now : ℤ) :
    Alert × Option AlertEvent :=
  if cooldown_gated a now then (a, none)
  else
    match dispatch_eval db a now with
    | none => (a, none)
    | some vt =>
      -- `if triggered and value_observed is not None:`
      match vt.2, vt.1 with
      | true, some v =>
        ({ a with last_triggered_at := some now },
         some ⟨a.id, now, a.severity, v, a.threshold⟩)
      | _, _ => (a, none)

/-- A sequence of evaluations of one alert: each step is one
`evaluate_alert` call at a wall-clock time against a database snapshot,
threading the alert row (whose `last_triggered_at` the trigger path
updates) and collecting the inserted `alert_events` in order. -/
def eval_steps (a : Alert) : List (ℤ × DbSnap) → Alert × List AlertEvent
  | [] => (a, [])
  | (now, db) :: rest =>
    let r := evaluate_alert db a now
    let r' := eval_steps r.1 rest
    (r'.1, r.2.toList ++ r'.2)

/-- The C6 counterexample alert: a `provider_down` rule with threshold 0
(0 unhealthy endpoints already reaches it), a 5-minute window, a
1-minute cooldown, and no previous trigger. -/
def c6Alert : Alert :=
  ⟨1, "providers down", "provider_down", 0, 5, 1, "info", [], none⟩

/-- The same alert with `last_triggered_at = 60`, for exercising the
cooldown gate. -/
def c6AlertGated : Alert :=
  ⟨1, "providers down", "provider_down", 0, 5, 1, "info", [], some 60⟩

/-- An empty database snapshot. -/
def c6Db : DbSnap := ⟨[], [], []⟩

end Alerts

namespace Json

/-!
Model of the `json` standard-library pair `json.dumps` / `json.loads`
as used by worker_state.py: `dumps` with the default separators
`", "` and `": "`, `loads` as a parser that accepts exactly the
rendered language and rejects trailing input.  Floats are outside the
model (worker_state values are ints and strings), and string escaping
is modelled for the two characters `dumps` must escape to stay
invertible (`"` and `\`); the `\uXXXX` escapes Python additionally
emits for control and non-ASCII characters are not modelled.
-/

/-- The double-quote character. -/
def qChar : Char := Char.ofNat 34

/-- The backslash character. -/
def bsChar : Char := Char.ofNat 92

/-- The opening-brace character. -/
def lbrace : Char := Char.ofNat 123

/-- The closing-brace character. -/
def rbrace : Char := Char.ofNat 125

mutual

/-- A JSON value (without floats). -/
inductive JVal where
  | jnull
  | jbool (b : Bool)
  | jint (n : ℤ)
  | jstr (s : String)
  | jarr (a : JArr)
  | jobj (o : JObj)

/-- A JSON array, as a list of values. -/
inductive JArr where
  | nil
  | cons (v : JVal) (tl : JArr)

/-- A JSON object, as its key-value pairs in insertion order (which both
`dumps` and `loads` preserve for Python dicts). -/
inductive JObj where
  | nil
  | cons (k : String) (v : JVal) (tl : JObj)

end

/-- The decimal digit character for `d < 10`. -/
def digitChar (d : ℕ) : Char := Char.ofNat (48 + d)

/-- Decimal digits, most significant first, with explicit fuel (the
fuel `n + 1` of `natChars` always suffices). -/
def natCharsAux : ℕ → ℕ → List Char
  | 0, _ => []
  | fuel + 1, n =>
    if n < 10 then [digitChar n]
    else natCharsAux fuel (n / 10) ++ [digitChar (n % 10)]

/-- Decimal digits of a natural number, most significant first. -/
def natChars (n : ℕ) : List Char := natCharsAux (n + 1) n

/-- Python `repr` of an int. -/
def intChars (n : ℤ) : List Char :=
  if n < 0 then '-' :: natChars n.natAbs else natChars n.toNat

/-- Escape one character of a string literal. -/
def escapeChar (c : Char) : List Char :=
  if c = qChar ∨ c = bsChar then [bsChar, c] else [c]

/-- Render a string literal, quotes included. -/
def renderStr (s : String) : List Char :=
  qChar :: (s.data.map escapeChar).flatten ++ [qChar]

mutual

/-- Render a JSON value as `json.dumps` does (default separators). -/
def renderVal : JVal → List Char
  | .jnull => ['n', 'u', 'l', 'l']
  | .jbool true => ['t', 'r', 'u', 'e']
  | .jbool false => ['f', 'a', 'l', 's', 'e']
  | .jint n => intChars n
  | .jstr s => renderStr s
  | .jarr .nil => ['[', ']']
  | .jarr (.cons v tl) => '[' :: (renderVal v ++ renderArrTail tl ++ [']'])
  | .jobj .nil => [lbrace, rbrace]
  | .jobj (.cons k v tl) =>
    lbrace :: (renderStr k ++ ':' :: ' ' :: renderVal v ++ renderObjTail tl
      ++ [rbrace])

/-- Render the `", "`-separated remainder of an array. -/
def renderArrTail : JArr → List Char
  | .nil => []
  | .cons v tl => ',' :: ' ' :: (renderVal v ++ renderArrTail tl)

/-- Render the `", "`-separated remainder of an object. -/
def renderObjTail : JObj → List Char
  | .nil => []
  | .cons k v tl =>
    ',' :: ' ' :: (renderStr k ++ ':' :: ' ' :: renderVal v ++ renderObjTail tl)

end

/-- Is `c` a decimal digit? -/
def isDigitChar (c : Char) : Bool := 48 ≤ c.toNat ∧ c.toNat ≤ 57

/-- Consume leading digits into an accumulator. -/
def parseDigits (acc : ℕ) : List Char → ℕ × List Char
  | [] => (acc, [])
  | c :: cs =>
    if isDigitChar c then parseDigits (acc * 10 + (c.toNat - 48)) cs
    else (acc, c :: cs)

/-- Parse a string-literal body up to its closing quote; returns the
unescaped content and the input after the quote. -/
def parseStrChars : List Char → Option (List Char × List Char)
  | [] => none
  | c :: cs =>
    if c = qChar then some ([], cs)
    else if c = bsChar then
      match cs with
      | [] => none
      | e :: cs' =>
        if e = qChar ∨ e = bsChar then
          match parseStrChars cs' with
          | some (content, rest) => some (e :: content, rest)
          | none => none
        else none
    else
      match parseStrChars cs with
      | some (content, rest) => some (c :: content, rest)
      | none => none

/-- Does the input not begin with a digit?  (A value parse is only
invertible when what follows cannot extend a number literal.) -/
def noDigitStart : List Char → Bool
  | [] => true
  | c :: _ => !isDigitChar c

/-- The characters a rendered value can start with. -/
def valHeadOK (c : Char) : Bool :=
  c = 'n' || c = 't' || c = 'f' || c = qChar || c = '[' || c = lbrace ||
    c = '-' || isDigitChar c

mutual

/-- Parse one JSON value (fuelled recursion). -/
def parseVal : ℕ → List Char → Option (JVal × List Char)
  | 0, _ => none
  | fuel + 1, cs =>
    match cs with
    | [] => none
    | c :: rest =>
      if c = 'n' then
        match rest with
        | 'u' :: 'l' :: 'l' :: rest' => some (.jnull, rest')
        | _ => none
      else if c = 't' then
        match rest with
        | 'r' :: 'u' :: 'e' :: rest' => some (.jbool true, rest')
        | _ => none
      else if c = 'f' then
        match rest with
        | 'a' :: 'l' :: 's' :: 'e' :: rest' => some (.jbool false, rest')
        | _ => none
      else if c = qChar then
        match parseStrChars rest with
        | some (content, rest') => some (.jstr ⟨content⟩, rest')
        | none => none
      else if c = '[' then
        match rest with
        | [] => none
        | d :: rest2 =>
          if d = ']' then some (.jarr .nil, rest2)
          else
            match parseVal fuel rest with
            | some (v, rest') =>
              match parseArrTail fuel rest' with
              | some (tl, rest'') => some (.jarr (.cons v tl), rest'')
              | none => none
            | none => none
      else if c = lbrace then
        match rest with
        | [] => none
        | d :: rest2 =>
          if d = rbrace then some (.jobj .nil, rest2)
          else if d = qChar then
            match parseStrChars rest2 with
            | some (key, restk) =>
              match restk with
              | ':' :: ' ' :: restv =>
                match parseVal fuel restv with
                | some (v, rest') =>
                  match parseObjTail fuel rest' with
                  | some (tl, rest'') => some (.jobj (.cons ⟨key⟩ v tl), rest'')
                  | none => none
                | none => none
              | _ => none
            | none => none
          else none
      else if c = '-' then
        match rest with
        | [] => none
        | d :: _ =>
          if isDigitChar d then
            let p := parseDigits 0 rest
            some (.jint (-(p.1 : ℤ)), p.2)
          else none
      else if isDigitChar c then
        let p := parseDigits 0 (c :: rest)
        some (.jint (p.1 : ℤ), p.2)
      else none

/-- Parse the remainder of an array after its first element. -/
def parseArrTail : ℕ → List Char → Option (JArr × List Char)
  | 0, _ => none
  | fuel + 1, cs =>
    match cs with
    | ']' :: rest => some (.nil, rest)
    | ',' :: ' ' :: rest =>
      match parseVal fuel rest with
      | some (v, rest') =>
        match parseArrTail fuel rest' with
        | some (tl, rest'') => some (.cons v tl, rest'')
        | none => none
      | none => none
    | _ => none

/-- Parse the remainder of an object after its first pair. -/
def parseObjTail : ℕ → List Char → Option (JObj × List Char)
  | 0, _ => none
  | fuel + 1, cs =>
    match cs with
    | [] => none
    | c :: rest =>
      if c = rbrace then some (.nil, rest)
      else if c = ',' then
        match rest with
        | ' ' :: d :: rest2 =>
          if d = qChar then
            match parseStrChars rest2 with
            | some (key, restk) =>
              match restk with
              | ':' :: ' ' :: restv =>
                match parseVal fuel restv with
                | some (v, rest') =>
                  match parseObjTail fuel rest' with
                  | some (tl, rest'') => some (.cons ⟨key⟩ v tl, rest'')
                  | none => none
                | none => none
              | _ => none
            | none => none
          else none
        | _ => none
      else none

end

mutual

/-- Structural size of a JSON value, used as parser fuel. -/
def sizeV : JVal → ℕ
  | .jarr a => sizeA a + 1
  | .jobj o => sizeO o + 1
  | _ => 1

/-- Structural size of an array. -/
def sizeA : JArr → ℕ
  | .nil => 0
  | .cons v tl => sizeV v + sizeA tl + 1

/-- Structural size of an object. -/
def sizeO : JObj → ℕ
  | .nil => 0
  | .cons _ v tl => sizeV v + sizeO tl + 1

end

/-- Model of `json.dumps` on a value. -/
def json_dumps (v : JVal) : String := ⟨renderVal v⟩

/-- Model of `json.loads`: parse one value and reject trailing input; `none`
models the `json.JSONDecodeError` exception. -/
def json_loads (s : String) : Option JVal :=
  match parseVal (s.data.length + 1) s.data with
  | some (v, []) => some v
  | _ => none

end Json

namespace WorkerState

/-!
Shallow embedding of `get_state` / `set_state` from
src/worker/src/state/worker_state.py.

The `worker_state` table has primary key `key`, so it is a partial map
from keys to `(value, updated_at)` rows; `set_state`'s
`INSERT ... ON CONFLICT (key) DO UPDATE` is an update of that map.  The
`value` column stores the `json.dumps` text of a dict, so the stored
payload type is `Json.JObj`.
-/

/-- The `worker_state` table: `key ↦ (value, updated_at)`. -/
def WTable := String → Option (String × ℤ)

/-- The result of `get_state`: no row (or falsy value), a decoded value,
or a `json.loads` exception. -/
inductive GetStateResult where
  | noRow
  | value (v : Json.JVal)
  | decodeError

/-- Model of `set_state` (worker_state.py lines 22-34): upsert
`(key, json.dumps(value), now)` by primary key. -/
def set_state (tbl : WTable) (key : String) (value : Json.JObj) (now : ℤ) :
    WTable :=
  Function.update tbl key (some (Json.json_dumps (.jobj value), now))

/-- Model of `get_state` (worker_state.py lines 9-19): fetch the row; if present
and its value truthy (a non-empty string), `json.loads` it. -/
def get_state (tbl : WTable) (key : String) : GetStateResult :=
  match tbl key with
  | none => .noRow
  | some (s, _) =>
    if s = "" then .noRow
    else
      match Json.json_loads s with
      | some v => .value v
      | none => .decodeError

end WorkerState

/-!
## Lemmas about the JSON model
-/

namespace Json

theorem natCharsAux_fuel_eq : ∀ f n, n < f → natCharsAux f n = natChars n := by
  intro f
  induction f using Nat.strong_induction_on with
  | _ f ih =>
    intro n hn
    match f, hn with
    | f + 1, hn =>
      show natCharsAux (f + 1) n = natCharsAux (n + 1) n
      by_cases h10 : n < 10
      · simp [natCharsAux, h10]
      · have hdiv : n / 10 < n := Nat.div_lt_self (by omega) (by omega)
        have h1 : natCharsAux f (n / 10) = natChars (n / 10) :=
          ih f (by omega) (n / 10) (by omega)
        have h2 : natCharsAux n (n / 10) = natChars (n / 10) :=
          ih n (by omega) (n / 10) (by omega)
        simp [natCharsAux, h10, h1, h2]

theorem natChars_eq (n : ℕ) :
    natChars n =
      if n < 10 then [digitChar n]
      else natChars (n / 10) ++ [digitChar (n % 10)] := by
  show natCharsAux (n + 1) n = _
  by_cases h10 : n < 10
  · simp [natCharsAux, h10]
  · have hdiv : n / 10 < n := Nat.div_lt_self (by omega) (by omega)
    simp [natCharsAux, h10, natCharsAux_fuel_eq n (n / 10) hdiv]

theorem digitChar_toNat {d : ℕ} (h : d < 10) : (digitChar d).toNat = 48 + d := by
  interval_cases d <;> decide

theorem isDigitChar_digitChar {d : ℕ} (h : d < 10) :
    isDigitChar (digitChar d) = true := by
  interval_cases d <;> decide

theorem natChars_head (n : ℕ) :
    ∃ d t, natChars n = digitChar d :: t ∧ d < 10 := by
  induction n using Nat.strong_induction_on with
  | _ n ih =>
    rw [natChars_eq]
    by_cases h10 : n < 10
    · exact ⟨n, [], by simp [h10], h10⟩
    · have hdiv : n / 10 < n := Nat.div_lt_self (by omega) (by omega)
      obtain ⟨d, t, ht, hd⟩ := ih (n / 10) hdiv
      exact ⟨d, t ++ [digitChar (n % 10)], by simp [h10, ht], hd⟩

theorem parseDigits_noDigit (acc : ℕ) {cs : List Char}
    (h : noDigitStart cs = true) : parseDigits acc cs = (acc, cs) := by
  match cs, h with
  | [], _ => rfl
  | c :: t, h =>
    have hc : isDigitChar c = false := by
      simpa [noDigitStart] using h
    simp [parseDigits, hc]

theorem parseDigits_natChars (n : ℕ) : ∀ acc rest,
    parseDigits acc (natChars n ++ rest) =
      parseDigits (acc * 10 ^ (natChars n).length + n) rest := by
  induction n using Nat.strong_induction_on with
  | _ n ih =>
    intro acc rest
    by_cases h10 : n < 10
    · rw [natChars_eq]
      simp only [h10, if_true, List.singleton_append, List.length_singleton]
      rw [parseDigits]
      simp [isDigitChar_digitChar h10, digitChar_toNat h10]
    · have hdiv : n / 10 < n := Nat.div_lt_self (by omega) (by omega)
      have hmod : n % 10 < 10 := Nat.mod_lt _ (by omega)
      rw [natChars_eq]
      simp only [h10, if_false, List.append_assoc, List.cons_append,
        List.nil_append]
      rw [ih (n / 10) hdiv]
      rw [parseDigits]
      simp only [isDigitChar_digitChar hmod, if_true,
        digitChar_toNat hmod]
      have harith :
          (acc * 10 ^ (natChars (n / 10)).length + n / 10) * 10 +
              (48 + n % 10 - 48) =
            acc * 10 ^ (natChars (n / 10) ++ [digitChar (n % 10)]).length
              + n := by
        simp [List.length_append, pow_succ]
        ring_nf
        omega
      rw [harith]

theorem parseStrChars_render (content : List Char) : ∀ rest,
    parseStrChars ((content.map escapeChar).flatten ++ qChar :: rest) =
      some (content, rest) := by
  induction content with
  | nil =>
    intro rest
    rw [parseStrChars.eq_def]
    simp
  | cons c cs ih =>
    intro rest
    by_cases hc : c = qChar ∨ c = bsChar
    · have he : escapeChar c = [bsChar, c] := by simp [escapeChar, hc]
      simp only [List.map_cons, List.flatten_cons, he, List.append_assoc,
        List.cons_append, List.nil_append]
      rw [parseStrChars.eq_def]
      have hbq : (bsChar = qChar) = False := by simp [bsChar, qChar]
      simp [hbq, hc, ih rest]
    · push_neg at hc
      have he : escapeChar c = [c] := by
        simp [escapeChar, hc.1, hc.2]
      simp only [List.map_cons, List.flatten_cons, he, List.append_assoc,
        List.cons_append, List.nil_append]
      rw [parseStrChars.eq_def]
      simp [hc.1, hc.2, ih rest]

theorem renderVal_head (v : JVal) :
    ∃ c t, renderVal v = c :: t ∧ valHeadOK c = true := by
  cases v with
  | jnull => exact ⟨'n', _, rfl, by decide⟩
  | jbool b =>
    cases b
    · exact ⟨'f', _, rfl, by decide⟩
    · exact ⟨'t', _, rfl, by decide⟩
  | jint n =>
    by_cases hn : n < 0
    · exact ⟨'-', natChars n.natAbs, by simp [renderVal, intChars, hn],
        by decide⟩
    · obtain ⟨d, t, ht, hd⟩ := natChars_head n.toNat
      refine ⟨digitChar d, t, by simp [renderVal, intChars, hn, ht], ?_⟩
      simp [valHeadOK, isDigitChar_digitChar hd]
  | jstr s => exact ⟨qChar, _, rfl, by simp [valHeadOK]⟩
  | jarr a =>
    cases a
    · exact ⟨'[', _, rfl, by decide⟩
    · exact ⟨'[', _, rfl, by decide⟩
  | jobj o =>
    cases o
    · exact ⟨lbrace, _, rfl, by simp [valHeadOK]⟩
    · exact ⟨lbrace, _, rfl, by simp [valHeadOK]⟩

theorem sizeV_pos (v : JVal) : 1 ≤ sizeV v := by
  cases v <;> simp [sizeV]

theorem valHead_ne_close {c : Char} (h : valHeadOK c = true) :
    ((c = ']') = False) ∧ ((c = rbrace) = False) := by
  simp only [valHeadOK, Bool.or_eq_true, decide_eq_true_eq] at h
  constructor <;> apply eq_false <;> rintro rfl <;>
    rcases h with h | h | h | h | h | h | h | h <;> revert h <;> decide

theorem digit_ne_special {c : Char} (h : isDigitChar c = true) :
    ((c = 'n') = False) ∧ ((c = 't') = False) ∧ ((c = 'f') = False) ∧
    ((c = qChar) = False) ∧ ((c = '[') = False) ∧ ((c = lbrace) = False) ∧
    ((c = '-') = False) := by
  refine ⟨?_, ?_, ?_, ?_, ?_, ?_, ?_⟩ <;> apply eq_false <;> rintro rfl <;>
    revert h <;> decide

theorem noDigitStart_arr (a : JArr) (rest : List Char) :
    noDigitStart (renderArrTail a ++ ']' :: rest) = true := by
  cases a <;> simp [renderArrTail, noDigitStart] <;> decide

theorem noDigitStart_obj (o : JObj) (rest : List Char) :
    noDigitStart (renderObjTail o ++ rbrace :: rest) = true := by
  cases o <;> simp [renderObjTail, noDigitStart] <;> decide

theorem qChar_ne_n : (qChar = 'n') = False := by decide

theorem qChar_ne_t : (qChar = 't') = False := by decide

theorem qChar_ne_f : (qChar = 'f') = False := by decide

theorem qChar_ne_rbrace : (qChar = rbrace) = False := by decide

theorem lbrack_ne_q : (('[' : Char) = qChar) = False := by decide

theorem lbrace_ne_n : (lbrace = 'n') = False := by decide

theorem lbrace_ne_t : (lbrace = 't') = False := by decide

theorem lbrace_ne_f : (lbrace = 'f') = False := by decide

theorem lbrace_ne_q : (lbrace = qChar) = False := by decide

theorem lbrace_ne_lbrack : (lbrace = '[') = False := by decide

theorem dash_ne_q : (('-' : Char) = qChar) = False := by decide

theorem dash_ne_lbrace : (('-' : Char) = lbrace) = False := by decide

theorem comma_ne_rbrace : ((',' : Char) = rbrace) = False := by decide

end Json

namespace Json

/-- With enough fuel, the parser inverts the renderer (jointly for
values, array tails and object tails). -/
theorem parse_render_ok : ∀ fuel : ℕ,
    (∀ v rest, sizeV v < fuel → noDigitStart rest = true →
      parseVal fuel (renderVal v ++ rest) = some (v, rest)) ∧
    (∀ a rest, sizeA a < fuel →
      parseArrTail fuel (renderArrTail a ++ ']' :: rest) = some (a, rest)) ∧
    (∀ o rest, sizeO o < fuel →
      parseObjTail fuel (renderObjTail o ++ rbrace :: rest) = some (o, rest)) := by
  intro fuel
  induction fuel using Nat.strong_induction_on with
  | _ fuel ih =>
    match fuel with
    | 0 =>
      refine ⟨?_, ?_, ?_⟩ <;> intro x rest h <;> omega
    | f + 1 =>
      obtain ⟨IHv, IHa, IHo⟩ := ih f (Nat.lt_succ_self f)
      refine ⟨?_, ?_, ?_⟩
      · intro v rest hsize hrest
        cases v with
        | jnull => simp [renderVal, parseVal]
        | jbool b => cases b <;> simp [renderVal, parseVal]
        | jint n =>
          by_cases hn : n < 0
          · obtain ⟨d, t, ht, hd⟩ := natChars_head n.natAbs
            have hdig : isDigitChar (digitChar d) = true :=
              isDigitChar_digitChar hd
            have hp : parseDigits 0 (digitChar d :: (t ++ rest)) =
                (n.natAbs, rest) := by
              have hsh : digitChar d :: (t ++ rest) = natChars n.natAbs ++ rest := by
                rw [ht]; rfl
              rw [hsh, parseDigits_natChars, zero_mul, zero_add,
                parseDigits_noDigit _ hrest]
            have hneg : -((n.natAbs : ℕ) : ℤ) = n := by omega
            simp only [renderVal, intChars, hn, if_true, ht, List.cons_append]
            simp [parseVal, dash_ne_q, dash_ne_lbrace, hdig, hp, hneg,
              abs_of_neg hn]
          · obtain ⟨d, t, ht, hd⟩ := natChars_head n.toNat
            have hdig : isDigitChar (digitChar d) = true :=
              isDigitChar_digitChar hd
            obtain ⟨h1, h2, h3, h4, h5, h6, h7⟩ := digit_ne_special hdig
            have hp : parseDigits 0 (digitChar d :: (t ++ rest)) =
                (n.toNat, rest) := by
              have hsh : digitChar d :: (t ++ rest) = natChars n.toNat ++ rest := by
                rw [ht]; rfl
              rw [hsh, parseDigits_natChars, zero_mul, zero_add,
                parseDigits_noDigit _ hrest]
            simp only [renderVal, intChars, hn, if_false, ht, List.cons_append]
            simp [parseVal, h1, h2, h3, h4, h5, h6, h7, hdig, hp,
              Int.toNat_of_nonneg (by omega : (0:ℤ) ≤ n)]
        | jstr s =>
          simp only [renderVal, renderStr, List.cons_append, List.append_assoc,
            List.singleton_append]
          simp [parseVal, qChar_ne_n, qChar_ne_t, qChar_ne_f,
            parseStrChars_render s.data rest]
        | jarr a =>
          cases a with
          | nil => simp [renderVal, parseVal, lbrack_ne_q]
          | cons hd tl =>
            have hsV : sizeV (.jarr (.cons hd tl)) = sizeV hd + sizeA tl + 2 := by
              simp [sizeV, sizeA]
            have h1 : sizeV hd < f := by omega
            have h2 : sizeA tl < f := by
              have := sizeV_pos hd; omega
            have ihv := IHv hd (renderArrTail tl ++ ']' :: rest) h1
              (noDigitStart_arr tl rest)
            have iha := IHa tl rest h2
            obtain ⟨c, t, hc, hhead⟩ := renderVal_head hd
            have hne := (valHead_ne_close hhead).1
            rw [hc] at ihv
            simp only [List.cons_append, List.append_assoc] at ihv
            simp only [renderVal, List.cons_append, List.append_assoc,
              List.singleton_append]
            rw [hc]
            simp [parseVal, lbrack_ne_q, hne, ihv, iha]
        | jobj o =>
          cases o with
          | nil =>
            simp [renderVal, parseVal, lbrace_ne_n, lbrace_ne_t, lbrace_ne_f,
              lbrace_ne_q, lbrace_ne_lbrack]
          | cons k v tl =>
            have hsV : sizeV (.jobj (.cons k v tl)) = sizeV v + sizeO tl + 2 := by
              simp [sizeV, sizeO]
            have h1 : sizeV v < f := by omega
            have h2 : sizeO tl < f := by
              have := sizeV_pos v; omega
            have ihv := IHv v (renderObjTail tl ++ rbrace :: rest) h1
              (noDigitStart_obj tl rest)
            have iho := IHo tl rest h2
            simp only [renderVal, renderStr, List.cons_append, List.append_assoc,
              List.singleton_append]
            have hstr := parseStrChars_render k.data
              (':' :: ' ' :: (renderVal v ++ (renderObjTail tl ++ rbrace :: rest)))
            simp [parseVal, lbrace_ne_n, lbrace_ne_t, lbrace_ne_f, lbrace_ne_q,
              lbrace_ne_lbrack, qChar_ne_rbrace, hstr, ihv, iho]
      · intro a rest hsize
        cases a with
        | nil => simp [renderArrTail, parseArrTail]
        | cons v tl =>
          have hsA : sizeA (.cons v tl) = sizeV v + sizeA tl + 1 := by
            simp [sizeA]
          have h1 : sizeV v < f := by omega
          have h2 : sizeA tl < f := by
            have := sizeV_pos v; omega
          have ihv := IHv v (renderArrTail tl ++ ']' :: rest) h1
            (noDigitStart_arr tl rest)
          have iha := IHa tl rest h2
          simp only [renderArrTail, List.cons_append, List.append_assoc]
          simp only [List.cons_append, List.append_assoc] at ihv
          simp [parseArrTail, ihv, iha]
      · intro o rest hsize
        cases o with
        | nil => simp [renderObjTail, parseObjTail]
        | cons k v tl =>
          have hsO : sizeO (.cons k v tl) = sizeV v + sizeO tl + 1 := by
            simp [sizeO]
          have h1 : sizeV v < f := by omega
          have h2 : sizeO tl < f := by
            have := sizeV_pos v; omega
          have ihv := IHv v (renderObjTail tl ++ rbrace :: rest) h1
            (noDigitStart_obj tl rest)
          have iho := IHo tl rest h2
          simp only [renderObjTail, renderStr, List.cons_append, List.append_assoc,
            List.singleton_append]
          have hstr := parseStrChars_render k.data
            (':' :: ' ' :: (renderVal v ++ (renderObjTail tl ++ rbrace :: rest)))
          simp [parseObjTail, comma_ne_rbrace, hstr, ihv, iho]

/-- The size of a value never exceeds its rendered length (so
`length + 1` is always enough parser fuel). -/
theorem size_le_renderLen : ∀ k : ℕ,
    (∀ v, sizeV v ≤ k → sizeV v ≤ (renderVal v).length) ∧
    (∀ a, sizeA a ≤ k → sizeA a ≤ (renderArrTail a).length) ∧
    (∀ o, sizeO o ≤ k → sizeO o ≤ (renderObjTail o).length) := by
  intro k
  induction k using Nat.strong_induction_on with
  | _ k ih =>
    refine ⟨?_, ?_, ?_⟩
    · intro v hv
      cases v with
      | jnull => simp [sizeV, renderVal]
      | jbool b => cases b <;> simp [sizeV, renderVal]
      | jint n =>
        obtain ⟨d, t, ht, hd⟩ := natChars_head n.natAbs
        obtain ⟨d2, t2, ht2, hd2⟩ := natChars_head n.toNat
        by_cases hn : n < 0 <;>
          simp [sizeV, renderVal, intChars, hn, ht, ht2]
      | jstr s => simp [sizeV, renderVal, renderStr]
      | jarr a =>
        cases a with
        | nil => simp [sizeV, sizeA, renderVal]
        | cons hd tl =>
          have hsz : sizeV (.jarr (.cons hd tl)) = sizeV hd + sizeA tl + 2 := by
            simp [sizeV, sizeA]
          have hk : 1 ≤ k := by have := sizeV_pos hd; omega
          have h1 := (ih (k - 1) (by omega)).1 hd (by have := sizeV_pos hd; omega)
          have h2 := (ih (k - 1) (by omega)).2.1 tl (by have := sizeV_pos hd; omega)
          simp only [renderVal, List.length_cons, List.length_append,
            List.length_singleton]
          omega
      | jobj o =>
        cases o with
        | nil => simp [sizeV, sizeO, renderVal]
        | cons key v tl =>
          have hsz : sizeV (.jobj (.cons key v tl)) = sizeV v + sizeO tl + 2 := by
            simp [sizeV, sizeO]
          have hk : 1 ≤ k := by have := sizeV_pos v; omega
          have h1 := (ih (k - 1) (by omega)).1 v (by have := sizeV_pos v; omega)
          have h2 := (ih (k - 1) (by omega)).2.2 tl (by have := sizeV_pos v; omega)
          simp only [renderVal, List.length_cons, List.length_append,
            List.length_singleton]
          omega
    · intro a ha
      cases a with
      | nil => simp [sizeA, renderArrTail]
      | cons v tl =>
        have hsz : sizeA (.cons v tl) = sizeV v + sizeA tl + 1 := by
          simp [sizeA]
        have hk : 1 ≤ k := by have := sizeV_pos v; omega
        have h1 := (ih (k - 1) (by omega)).1 v (by have := sizeV_pos v; omega)
        have h2 := (ih (k - 1) (by omega)).2.1 tl (by have := sizeV_pos v; omega)
        simp only [renderArrTail, List.length_cons, List.length_append]
        omega
    · intro o ho
      cases o with
      | nil => simp [sizeO, renderObjTail]
      | cons key v tl =>
        have hsz : sizeO (.cons key v tl) = sizeV v + sizeO tl + 1 := by
          simp [sizeO]
        have hk : 1 ≤ k := by have := sizeV_pos v; omega
        have h1 := (ih (k - 1) (by omega)).1 v (by have := sizeV_pos v; omega)
        have h2 := (ih (k - 1) (by omega)).2.2 tl (by have := sizeV_pos v; omega)
        simp only [renderObjTail, List.length_cons, List.length_append]
        omega

/-- Round trip: `json.loads(json.dumps(v)) = v`. -/
theorem json_loads_dumps (v : JVal) : json_loads (json_dumps v) = some v := by
  have hlen : sizeV v ≤ (renderVal v).length :=
    (size_le_renderLen (sizeV v)).1 v le_rfl
  have h := (parse_render_ok ((renderVal v).length + 1)).1 v [] (by omega) rfl
  rw [List.append_nil] at h
  simp [json_loads, json_dumps, h]

end Json

/-!
## Lemmas about the provider manager
-/

namespace Manager

theorem foldMax_some (l : List Endpoint) :
    ∀ m : Endpoint, ∃ r, l.foldl maxByScoreStep (some m) = some r ∧
      (r = m ∨ r ∈ l) ∧ m.score ≤ r.score ∧ ∀ e ∈ l, e.score ≤ r.score := by
  induction l with
  | nil => intro m; exact ⟨m, rfl, Or.inl rfl, le_refl _, by simp⟩
  | cons a t ih =>
    intro m
    by_cases h : a.score > m.score
    · obtain ⟨r, hr, hmem, hle, hall⟩ := ih a
      refine ⟨r, ?_, ?_, by omega, ?_⟩
      · simpa [maxByScoreStep, h] using hr
      · rcases hmem with rfl | hm
        · exact Or.inr (by simp)
        · exact Or.inr (by simp [hm])
      · intro e he
        rcases List.mem_cons.mp he with rfl | het
        · omega
        · exact hall e het
    · obtain ⟨r, hr, hmem, hle, hall⟩ := ih m
      refine ⟨r, ?_, ?_, hle, ?_⟩
      · simpa [maxByScoreStep, h] using hr
      · rcases hmem with rfl | hm
        · exact Or.inl rfl
        · exact Or.inr (by simp [hm])
      · intro e he
        rcases List.mem_cons.mp he with rfl | het
        · omega
        · exact hall e het

theorem sqlTopByScore_none_iff (p : Endpoint → Bool) (rows : List Endpoint) :
    sqlTopByScore p rows = none ↔ rows.filter p = [] := by
  unfold sqlTopByScore
  constructor
  · intro h
    cases hf : rows.filter p with
    | nil => rfl
    | cons a t =>
      rw [hf] at h
      simp only [List.foldl_cons, maxByScoreStep] at h
      obtain ⟨r, hr, -, -, -⟩ := foldMax_some t a
      rw [hr] at h
      exact absurd h (by simp)
  · intro h; rw [h]; rfl

theorem sqlTopByScore_some (p : Endpoint → Bool) (rows : List Endpoint)
    {r : Endpoint} (h : sqlTopByScore p rows = some r) :
    r ∈ rows.filter p ∧ ∀ e ∈ rows.filter p, e.score ≤ r.score := by
  unfold sqlTopByScore at h
  cases hf : rows.filter p with
  | nil => rw [hf] at h; exact absurd h (by simp)
  | cons a t =>
    rw [hf] at h
    simp only [List.foldl_cons, maxByScoreStep] at h
    obtain ⟨r2, hr2, hmem, hle, hall⟩ := foldMax_some t a
    rw [hr2] at h
    obtain rfl : r2 = r := by simpa using h
    constructor
    · rcases hmem with rfl | hm
      · simp
      · simp [hm]
    · intro e he
      rcases List.mem_cons.mp he with rfl | het
      · omega
      · exact hall e het

end Manager

/-!
## Lemmas about the alert evaluator
-/

namespace Alerts

/-- One evaluation either leaves the alert unchanged with no event, or
inserts an event stamped `now` and moves `last_triggered_at` to `now`;
the trigger path is only reachable when a truthy previous timestamp is
at least one full cooldown old. -/
theorem evaluate_alert_cases (db : DbSnap) (a : Alert) (now : ℤ) :
    evaluate_alert db a now = (a, none) ∨
    ∃ v : ℚ, evaluate_alert db a now =
        ({ a with last_triggered_at := some now },
         some ⟨a.id, now, a.severity, v, a.threshold⟩) ∧
      ∀ t0, a.last_triggered_at = some t0 → t0 ≠ 0 →
        a.cooldown_minutes * 60 ≤ now - t0 := by
  unfold evaluate_alert
  cases hg : cooldown_gated a now with
  | true => left; simp [hg]
  | false =>
    have hb : ∀ t0, a.last_triggered_at = some t0 → t0 ≠ 0 →
        a.cooldown_minutes * 60 ≤ now - t0 := by
      intro t0 ht0 hne
      unfold cooldown_gated at hg
      rw [ht0] at hg
      simp only [decide_eq_false_iff_not, not_and, not_lt] at hg
      omega
    simp only [hg, Bool.false_eq_true, if_false]
    cases hd : dispatch_eval db a now with
    | none => left; rfl
    | some vt =>
      obtain ⟨vo, trig⟩ := vt
      cases trig with
      | false => left; rfl
      | true =>
        cases vo with
        | none => left; rfl
        | some v => right; exact ⟨v, rfl, hb⟩

/-- Along any sequence of evaluations of one alert whose times are
positive, the inserted events are spaced by at least one cooldown, each
event time is positive, and a truthy initial `last_triggered_at`
precedes every event by at least one cooldown. -/
theorem eval_steps_cooldown (steps : List (ℤ × DbSnap)) : ∀ a : Alert,
    0 < a.cooldown_minutes →
    (∀ s ∈ steps, 0 < s.1) →
    (∀ t0, a.last_triggered_at = some t0 → 0 < t0) →
    (eval_steps a steps).2.Pairwise
      (fun e1 e2 => e1.triggered_at + a.cooldown_minutes * 60 ≤ e2.triggered_at)
    ∧ (∀ e ∈ (eval_steps a steps).2, 0 < e.triggered_at)
    ∧ (∀ t0, a.last_triggered_at = some t0 → 0 < t0 →
        ∀ e ∈ (eval_steps a steps).2,
          t0 + a.cooldown_minutes * 60 ≤ e.triggered_at) := by
  induction steps with
  | nil =>
    intro a hcd hpos hinit
    simp [eval_steps]
  | cons s rest ih =>
    intro a hcd hpos hinit
    obtain ⟨now, db⟩ := s
    have hnow : 0 < now := hpos (now, db) (by simp)
    have hrest : ∀ x ∈ rest, 0 < x.1 := fun x hx => hpos x (by simp [hx])
    rcases evaluate_alert_cases db a now with hcase | ⟨v, hcase, hbound⟩
    · obtain ⟨hp, hq, hr⟩ := ih a hcd hrest hinit
      simp only [eval_steps, hcase]
      exact ⟨hp, hq, hr⟩
    · set a2 : Alert := { a with last_triggered_at := some now } with ha2
      have hinit2 : ∀ t0, a2.last_triggered_at = some t0 → 0 < t0 := by
        intro t0 ht0
        simp only [ha2] at ht0
        obtain rfl : now = t0 := by simpa using ht0
        exact hnow
      have hcd2 : 0 < a2.cooldown_minutes := hcd
      obtain ⟨hp, hq, hr⟩ := ih a2 hcd2 hrest hinit2
      have hfirst : ∀ e ∈ (eval_steps a2 rest).2,
          now + a.cooldown_minutes * 60 ≤ e.triggered_at := by
        intro e he
        exact hr now rfl hnow e he
      simp only [eval_steps, hcase]
      refine ⟨?_, ?_, ?_⟩
      · simp only [Option.toList_some, List.singleton_append]
        exact List.Pairwise.cons (fun e he => hfirst e he) hp
      · intro e he
        simp only [Option.toList_some, List.singleton_append, List.mem_cons] at he
        rcases he with rfl | he
        · exact hnow
        · exact hq e he
      · intro t0 ht0 ht0pos e he
        have ht0ne : t0 ≠ 0 := by omega
        have hb := hbound t0 ht0 ht0ne
        simp only [Option.toList_some, List.singleton_append, List.mem_cons] at he
        rcases he with rfl | he
        · simp only []
          omega
        · have := hfirst e he
          omega

end Alerts

/-!
## Claim theorems
-/

/-- C1: the spec claims a detected reorg at block `n` marks txs with
`block_number ≥ n-10` tentative, resets `last_scanned_block` to
`max(0, n-20)` with hash `"0x0"`, clears the in-memory hash, and aborts
the cycle so that the cursor is not advanced again before the cycle
ends.  Evaluating the model at the failing input (cursor 100, tip 120,
reorg detected at block 101 during a catching-up batch of 10) shows the
rollback write `setLastScanned 81` is followed, in the same cycle, by
scans of blocks 102-110 that re-advance the cursor to 110: the `return`
in `scan_block` does not abort `scan_cycle`'s batch loop. -/
theorem C1_reorg_rollback_overwritten_same_cycle :
    Scanner.c1Writes =
      [.markTentative 91, .setLastScanned 81 "0x0",
       .setLastScanned 102 "A102", .setLastScanned 103 "A103",
       .setLastScanned 104 "A104", .setLastScanned 105 "A105",
       .setLastScanned 106 "A106", .setLastScanned 107 "A107",
       .setLastScanned 108 "A108", .setLastScanned 109 "A109",
       .setLastScanned 110 "A110"] := by
  decide

/-- C2: the spec claims the persisted score subtracts
`block_lag * 10` against the cycle leader.  In the code, every
`probe_endpoint` computes its score while `self.leader_block` is still
0 (the post-gather leader fold runs after all scores are computed), so
the lag penalty is never applied: with two fast, failure-free
endpoints at blocks 103 and 100, the laggard's persisted score is 100,
while the spec's §4.4 formula (leader 103, lag 3) prescribes 70. -/
theorem C2_block_lag_penalty_never_applied :
    (Probe.probe_cycle (fun _ => 0) Probe.c2Endpoints).2.1 = 103 ∧
    (Probe.probe_cycle (fun _ => 0) Probe.c2Endpoints).2.2.map
      Probe.ProbeResult.score = [100, 100] ∧
    Probe.spec_cycle_score Probe.c2Endpoints 0 (.success 100 100) = 70 ∧
    (100 : ℤ) ≠ 70 := by
  refine ⟨?_, ?_, ?_, by norm_num⟩
  · simp only [Probe.probe_cycle, Probe.c2Endpoints, List.foldl,
      Probe.probe_endpoint]
    norm_num
  · simp only [Probe.probe_cycle, Probe.c2Endpoints, List.foldl,
      Probe.probe_endpoint, List.map, List.append_nil, List.nil_append,
      List.cons_append]
    norm_num [Scoring.calculate_score, Scoring.pyInt, Function.update]
  · have h1 : Probe.spec_block_lag (Probe.spec_leader_block Probe.c2Endpoints)
        (.success 100 100) = 3 := by decide
    simp only [Probe.spec_cycle_score, Probe.probeLatency]
    rw [h1]
    norm_num [Scoring.calculate_score, Scoring.pyInt]

/-- C3: the spec claims a 2xx response carrying a JSON-RPC `error`
object fails with a Protocol-typed error carrying the server's code and
message.  In the code, the `RPCError` raised for that case inside the
`try` body is caught by the trailing `except Exception` and replaced by
`RPCError(-32003, "Unknown error: ...")`: the server's numeric code
-32000 survives only inside the message text. -/
theorem C3_protocol_error_reclassified_as_unknown :
    Rpc.call (.ok Rpc.c3Body) =
      .error ⟨some (-32003),
        some "Unknown error: RPC Error -32000: execution reverted"⟩ ∧
    (-32003 : ℤ) ≠ -32000 :=
  ⟨rfl, by decide⟩

/-- C4 counterexample: the claimed law `calculate_score(null, 4, 0) = 0`
is false — the error penalty is capped at 75, so the score is 25. -/
theorem C4_null_latency_four_failures_not_zero :
    Scoring.calculate_score none 4 0 ≠ 0 := by
  norm_num [Scoring.calculate_score, Scoring.pyInt]

/-- C4 (amended): the law-test equalities of the scoring function, with
`calculate_score(null, 4, 0) = 25` (the error penalty `min(75, 4×25)`
caps at 75, matching the spec's own §4.4 formula) in place of the
claimed 0; the other four equalities hold as claimed. -/
theorem C4_score_laws_amended :
    Scoring.calculate_score (some 120) 0 0 = 100 ∧
    Scoring.calculate_score (some 450) 0 0 = 95 ∧
    Scoring.calculate_score (some 200) 2 0 = 50 ∧
    Scoring.calculate_score none 4 0 = 25 ∧
    Scoring.calculate_score (some 200) 0 3 = 70 := by
  refine ⟨?_, ?_, ?_, ?_, ?_⟩ <;> norm_num [Scoring.calculate_score, Scoring.pyInt]

set_option maxRecDepth 20000 in
/-- C5: the revert decoder laws — `"0x08c379a0" + abiEncode("string",
"BOOM")` decodes to signature `0x08c379a0`, message `"BOOM"`, params
`{message: "BOOM"}`; `"0x4e487b71" + pad32(0x11)` decodes to signature
`0x4e487b71`, message `"Arithmetic overflow/underflow"`, params
`{code: 17}`; and every input shorter than 10 characters yields a null
signature, message `"Unknown revert"`, and null params. -/
theorem C5_revert_decoder_laws :
    (Decoder.extract_error_signature Decoder.errorStringInput =
        some "0x08c379a0" ∧
      Decoder.decode_error Decoder.errorStringInput =
        ("BOOM", some (.message "BOOM"))) ∧
    (Decoder.extract_error_signature Decoder.panicInput = some "0x4e487b71" ∧
      Decoder.decode_error Decoder.panicInput =
        ("Arithmetic overflow/underflow", some (.code 17))) ∧
    (∀ s : String, s.length < 10 →
      Decoder.extract_error_signature s = none ∧
      Decoder.decode_error s = ("Unknown revert", none)) := by
  refine ⟨⟨?_, ?_⟩, ⟨?_, ?_⟩, ?_⟩
  · decide
  · decide
  · decide
  · decide
  · intro s h
    have hx : Decoder.extract_error_signature s = none := by
      unfold Decoder.extract_error_signature
      rw [if_pos (Or.inr h)]
    refine ⟨hx, ?_⟩
    unfold Decoder.decode_error
    rw [hx]
    split <;> rfl

/-- Witness for C5: the universal short-input clause applied at the
concrete input `"0x1234"`. -/
theorem C5_revert_decoder_laws_witness :
    Decoder.extract_error_signature "0x1234" = none ∧
    Decoder.decode_error "0x1234" = ("Unknown revert", none) :=
  C5_revert_decoder_laws.2.2 "0x1234" (by decide)

/-- C6 counterexample: with a `provider_down` alert (threshold 0,
cooldown 1 minute) evaluated at times 0 and 10, two `alert_events` for
the same alert are inserted only 10 seconds apart — the first event's
`triggered_at = 0` is stored into `last_triggered_at`, and the Python
truthiness test `if last_triggered_at:` treats 0 as unset, so the
second evaluation bypasses the cooldown gate. -/
theorem C6_zero_timestamp_bypasses_cooldown :
    (Alerts.eval_steps Alerts.c6Alert
        [(0, Alerts.c6Db), (10, Alerts.c6Db)]).2.map
      Alerts.AlertEvent.triggered_at = [0, 10] ∧
    Alerts.c6Alert.cooldown_minutes = 1 ∧
    (10 : ℤ) - 0 < 1 * 60 := by
  refine ⟨?_, rfl, by norm_num⟩
  have h1 : Alerts.eval_provider_down 0 ([] : List Endpoint) =
      (some 0, true) := by
    unfold Alerts.eval_provider_down
    norm_num
  simp [Alerts.eval_steps, Alerts.evaluate_alert, Alerts.cooldown_gated,
    Alerts.dispatch_eval, Alerts.c6Alert, Alerts.c6Db, h1]

/-- C6 (amended): provided every evaluation time is positive and any
initial `last_triggered_at` is positive (the code treats the timestamp
0 as unset), the cooldown is honoured: an evaluation whose
`last_triggered_at` is set to a nonzero timestamp within
`cooldown_minutes × 60` seconds of `now` performs no evaluation and
inserts no event, and any two events of the same alert are at least one
cooldown apart. -/
theorem C6_cooldown_amended :
    (∀ (db : Alerts.DbSnap) (a : Alerts.Alert) (now t : ℤ),
      a.last_triggered_at = some t → t ≠ 0 →
      now - t < a.cooldown_minutes * 60 →
      Alerts.evaluate_alert db a now = (a, none)) ∧
    (∀ (steps : List (ℤ × Alerts.DbSnap)) (a : Alerts.Alert),
      0 < a.cooldown_minutes →
      (∀ s ∈ steps, 0 < s.1) →
      (∀ t0, a.last_triggered_at = some t0 → 0 < t0) →
      (Alerts.eval_steps a steps).2.Pairwise
        (fun e1 e2 =>
          e1.triggered_at + a.cooldown_minutes * 60 ≤ e2.triggered_at)) := by
  constructor
  · intro db a now t ht hne hcd
    have hg : Alerts.cooldown_gated a now = true := by
      unfold Alerts.cooldown_gated
      rw [ht]
      simp [hne, hcd]
    unfold Alerts.evaluate_alert
    simp [hg]
  · intro steps a hcd hpos hinit
    exact (Alerts.eval_steps_cooldown steps a hcd hpos hinit).1

/-- Witness for C6 (amended): the gate clause at `now = 70` with
`last_triggered_at = 60` and a one-minute cooldown, and the pairwise
spacing over the concrete trace `[(60, db), (70, db)]`. -/
theorem C6_cooldown_amended_witness :
    Alerts.evaluate_alert Alerts.c6Db Alerts.c6AlertGated 70 =
      (Alerts.c6AlertGated, none) ∧
    (Alerts.eval_steps Alerts.c6Alert
        [(60, Alerts.c6Db), (70, Alerts.c6Db)]).2.Pairwise
      (fun e1 e2 =>
        e1.triggered_at + Alerts.c6Alert.cooldown_minutes * 60 ≤
          e2.triggered_at) :=
  ⟨C6_cooldown_amended.1 Alerts.c6Db Alerts.c6AlertGated 70 60 rfl
      (by decide) (by decide),
   C6_cooldown_amended.2 [(60, Alerts.c6Db), (70, Alerts.c6Db)]
      Alerts.c6Alert (by decide)
      (by intro x hx; rcases List.mem_cons.mp hx with rfl | hx2
          · norm_num
          · rcases List.mem_cons.mp hx2 with rfl | hx3
            · norm_num
            · simp at hx3)
      (by intro t0 ht0; simp [Alerts.c6Alert] at ht0)⟩

/-- C7: `get_primary` returns the highest-scoring endpoint among those
with `is_active = true` and `status = 'healthy'`; if none exists it
returns the highest-scoring `is_active` endpoint regardless of status;
and it raises if and only if no `is_active` endpoint exists at all. -/
theorem C7_get_primary_selection (rows : List Endpoint) :
    ((∃ e ∈ rows, Manager.activeHealthy e = true) →
      ∃ r, Manager.get_primary rows = some r ∧ r ∈ rows ∧
        Manager.activeHealthy r = true ∧
        ∀ e ∈ rows, Manager.activeHealthy e = true → e.score ≤ r.score) ∧
    ((¬ ∃ e ∈ rows, Manager.activeHealthy e = true) →
      (∃ e ∈ rows, Manager.activeOnly e = true) →
      ∃ r, Manager.get_primary rows = some r ∧ r ∈ rows ∧
        Manager.activeOnly r = true ∧
        ∀ e ∈ rows, Manager.activeOnly e = true → e.score ≤ r.score) ∧
    (Manager.get_primary rows = none ↔ ¬ ∃ e ∈ rows, e.is_active = true) := by
  refine ⟨?_, ?_, ?_⟩
  · intro hex
    cases htop : Manager.sqlTopByScore Manager.activeHealthy rows with
    | none =>
      rw [Manager.sqlTopByScore_none_iff] at htop
      obtain ⟨e, he, hah⟩ := hex
      have : e ∈ rows.filter Manager.activeHealthy :=
        List.mem_filter.mpr ⟨he, hah⟩
      simp [htop] at this
    | some r =>
      obtain ⟨hmem, hall⟩ := Manager.sqlTopByScore_some _ _ htop
      refine ⟨r, by simp [Manager.get_primary, htop],
        (List.mem_filter.mp hmem).1, (List.mem_filter.mp hmem).2, ?_⟩
      intro e he hah
      exact hall e (List.mem_filter.mpr ⟨he, hah⟩)
  · intro hnone hex
    have hf1 : rows.filter Manager.activeHealthy = [] := by
      cases hf : rows.filter Manager.activeHealthy with
      | nil => rfl
      | cons a t =>
        exfalso
        have ha : a ∈ rows.filter Manager.activeHealthy := by simp [hf]
        exact hnone ⟨a, (List.mem_filter.mp ha).1, (List.mem_filter.mp ha).2⟩
    have htop1 : Manager.sqlTopByScore Manager.activeHealthy rows = none :=
      (Manager.sqlTopByScore_none_iff _ _).mpr hf1
    cases htop : Manager.sqlTopByScore Manager.activeOnly rows with
    | none =>
      rw [Manager.sqlTopByScore_none_iff] at htop
      obtain ⟨e, he, ha⟩ := hex
      have : e ∈ rows.filter Manager.activeOnly := List.mem_filter.mpr ⟨he, ha⟩
      simp [htop] at this
    | some r =>
      obtain ⟨hmem, hall⟩ := Manager.sqlTopByScore_some _ _ htop
      refine ⟨r, by simp [Manager.get_primary, htop1, htop],
        (List.mem_filter.mp hmem).1, (List.mem_filter.mp hmem).2, ?_⟩
      intro e he ha
      exact hall e (List.mem_filter.mpr ⟨he, ha⟩)
  · constructor
    · intro h
      rintro ⟨e, he, ha⟩
      cases htop : Manager.sqlTopByScore Manager.activeHealthy rows with
      | some r => simp [Manager.get_primary, htop] at h
      | none =>
        have h2 : Manager.sqlTopByScore Manager.activeOnly rows = none := by
          simpa [Manager.get_primary, htop] using h
        rw [Manager.sqlTopByScore_none_iff] at h2
        have : e ∈ rows.filter Manager.activeOnly :=
          List.mem_filter.mpr ⟨he, by simpa [Manager.activeOnly] using ha⟩
        simp [h2] at this
    · intro h
      have hf2 : rows.filter Manager.activeOnly = [] := by
        cases hf : rows.filter Manager.activeOnly with
        | nil => rfl
        | cons a t =>
          exfalso
          have ha : a ∈ rows.filter Manager.activeOnly := by simp [hf]
          exact h ⟨a, (List.mem_filter.mp ha).1,
            by simpa [Manager.activeOnly] using (List.mem_filter.mp ha).2⟩
      have hf1 : rows.filter Manager.activeHealthy = [] := by
        cases hf : rows.filter Manager.activeHealthy with
        | nil => rfl
        | cons a t =>
          exfalso
          have ha : a ∈ rows.filter Manager.activeHealthy := by simp [hf]
          have hh := (List.mem_filter.mp ha).2
          simp only [Manager.activeHealthy, Bool.and_eq_true] at hh
          exact h ⟨a, (List.mem_filter.mp ha).1, hh.1⟩
      simp [Manager.get_primary,
        (Manager.sqlTopByScore_none_iff _ _).mpr hf1,
        (Manager.sqlTopByScore_none_iff _ _).mpr hf2]

/-- Witness for C7: on the concrete table (A active healthy score 92,
B active unhealthy score 30, C inactive score 99) the healthy clause
applies; on the empty table the raise clause applies. -/
theorem C7_get_primary_selection_witness :
    (∃ r, Manager.get_primary Manager.c7Rows = some r ∧
      r ∈ Manager.c7Rows ∧ Manager.activeHealthy r = true ∧
      ∀ e ∈ Manager.c7Rows, Manager.activeHealthy e = true →
        e.score ≤ r.score) ∧
    (Manager.get_primary [] = none ↔
      ¬ ∃ e ∈ ([] : List Endpoint), e.is_active = true) :=
  ⟨(C7_get_primary_selection Manager.c7Rows).1
      ⟨⟨1, "https://a.example", true, 92, "healthy", false⟩,
       by decide, by decide⟩,
   (C7_get_primary_selection []).2.2⟩

/-- C8: a rollup cycle whose target bucket `[target, target+60)` (with
`target = floor(now/60)*60 - 60` and `target > last_bucket_ts`)
contains zero transactions advances the cursor to `target` and performs
no other write: no `metrics_minute` row is created. -/
theorem C8_empty_bucket_advances_cursor_only
    (now : ℕ) (last_bucket_ts : ℤ) (txs : List Tx)
    (h1 : last_bucket_ts < Rollup.target_bucket now)
    (h2 : (txs.filter (Rollup.inBucket (Rollup.target_bucket now))).length
      = 0) :
    Rollup.rollup_cycle now last_bucket_ts txs =
      (Rollup.target_bucket now,
       [.setCursor (Rollup.target_bucket now)]) := by
  unfold Rollup.rollup_cycle
  rw [if_neg (by omega), if_pos h2]

/-- Witness for C8: `now = 120`, cursor 0, empty `txs` — the cycle
advances the cursor to bucket 60 and writes nothing else. -/
theorem C8_empty_bucket_advances_cursor_only_witness :
    Rollup.rollup_cycle 120 0 [] =
      (Rollup.target_bucket 120,
       [.setCursor (Rollup.target_bucket 120)]) :=
  C8_empty_bucket_advances_cursor_only 120 0 [] (by decide) (by decide)

/-- C9: with no stored `last_scanned_block`, `get_last_scanned_block`
returns `{block_number: 0, block_hash: "0x0"}`, so a fresh deployment's
first scan cycle (any tip ≥ 1) starts at block 1 rather than at the
chain tip. -/
theorem C9_fresh_start_begins_at_block_one :
    Scanner.get_last_scanned_block none =
      ⟨0, "0x0"⟩ ∧
    ∀ tip : ℕ, 1 ≤ tip →
      (Scanner.cycle_block_range 10 tip
        (Scanner.get_last_scanned_block none).block_number).head? = some 1 := by
  refine ⟨rfl, ?_⟩
  intro tip h
  have h0 : (Scanner.get_last_scanned_block none).block_number = 0 := rfl
  rw [h0]
  unfold Scanner.cycle_block_range
  rw [if_neg (by omega)]
  simp only [Nat.sub_zero]
  by_cases h10 : 10 < tip
  · have hmin : min 10 tip = 10 := by omega
    rw [if_pos h10, hmin]
    decide
  · rw [if_neg h10]
    rfl

/-- Witness for C9: the fresh-start clause applied at tip 100. -/
theorem C9_fresh_start_begins_at_block_one_witness :
    (Scanner.cycle_block_range 10 100
      (Scanner.get_last_scanned_block none).block_number).head? = some 1 :=
  C9_fresh_start_begins_at_block_one.2 100 (by decide)

/-- C10: `worker_state` is a round-tripping key-value store —
`get_state(k)` after `set_state(k, v)` returns exactly `v`, a second
`set_state` on the same key overwrites the previous row (upsert by
key), and `set_state` is idempotent for equal values. -/
theorem C10_worker_state_roundtrip :
    (∀ (tbl : WorkerState.WTable) (k : String) (v : Json.JObj) (now : ℤ),
      WorkerState.get_state (WorkerState.set_state tbl k v now) k =
        .value (.jobj v)) ∧
    (∀ (tbl : WorkerState.WTable) (k : String) (v v2 : Json.JObj)
        (now now2 : ℤ),
      WorkerState.set_state (WorkerState.set_state tbl k v now) k v2 now2 =
        WorkerState.set_state tbl k v2 now2) ∧
    (∀ (tbl : WorkerState.WTable) (k : String) (v : Json.JObj) (now : ℤ),
      WorkerState.set_state (WorkerState.set_state tbl k v now) k v now =
        WorkerState.set_state tbl k v now) := by
  have hupd : ∀ (tbl : WorkerState.WTable) (k : String) (v v2 : Json.JObj)
      (now now2 : ℤ),
      WorkerState.set_state (WorkerState.set_state tbl k v now) k v2 now2 =
        WorkerState.set_state tbl k v2 now2 := by
    intro tbl k v v2 now now2
    unfold WorkerState.set_state
    funext x
    by_cases hx : x = k
    · subst hx; rw [Function.update_same, Function.update_same]
    · rw [Function.update_noteq hx, Function.update_noteq hx,
        Function.update_noteq hx]
  refine ⟨?_, hupd, fun tbl k v now => hupd tbl k v v now now⟩
  intro tbl k v now
  unfold WorkerState.get_state WorkerState.set_state
  rw [Function.update_same]
  have hne : Json.json_dumps (.jobj v) ≠ "" := by
    obtain ⟨c, t, hct, -⟩ := Json.renderVal_head (.jobj v)
    unfold Json.json_dumps
    intro hcontra
    have hdata := congrArg String.data hcontra
    rw [hct] at hdata
    simp at hdata
  simp [hne, Json.json_loads_dumps]

end MObs
